import Mathlib

/-!
Verification of the execution-orchestration core of the sunny_agent service.

Shallow embedding of the Python sources under `src/app/`:
tool registry and restricted view (`app/tools/registry.py`), tool results
(`app/tools/base.py`), the L1 bounded loop's schema selection
(`app/execution/l1/fast_track.py`), the L3 ReAct components
(`app/execution/l3/{thinker,actor,observer,token_budget,react_engine}.py`),
ambient context (`app/execution/{agent_context,session_context}.py`),
the Todo store (`app/todo/store.py`), the sub-agent meta-tool
(`app/tools/builtin_tools/subagent_call.py`) and the skill subsystem
(`app/skills/registry.py`, `app/tools/builtin_tools/skill_exec.py`).

Effectful operations (LLM calls, Redis, subprocesses, HTTP) are modelled by
explicit state passing and oracle parameters; Python exceptions are modelled
with `Except`; Python dicts that the claims inspect are modelled as
association lists.  Wall-clock seconds are abstracted to naturals (no claim
depends on fractional time).
-/

namespace SunnyAgent

/-- Arguments dict passed to a tool (`arguments: dict`); values abstracted to
strings since no claim inspects argument values structurally. -/
def Args := List (String × String)
deriving DecidableEq

/-- `app/tools/base.py` `ToolResult`: `status`, `data`, `error`.
`data` values are stringified (the code holds `dict[str, Any]`). -/
structure ToolResult where
  status : String
  data : List (String × String)
  error : Option String
deriving DecidableEq, Repr

/-- `ToolResult.success(**data)`. -/
def ToolResult.success (data : List (String × String)) : ToolResult :=
  ⟨"success", data, none⟩

/-- `ToolResult.fail(error)`. -/
def ToolResult.fail (e : String) : ToolResult :=
  ⟨"error", [], some e⟩

/-- JSON string quoting; character escaping of `json.dumps` is abstracted. -/
def jsonQuote (s : String) : String := "\"" ++ s ++ "\""

/-- `ToolResult.to_json`: `\x7b"status":"error","error":…\x7d` or
`\x7b"status":"success",**data\x7d` (whitespace/escaping abstracted). -/
def ToolResult.toJson (r : ToolResult) : String :=
  if r.status = "error" then
    "\x7b\"status\": \"error\", \"error\": " ++ jsonQuote (r.error.getD "") ++ "\x7d"
  else
    "\x7b\"status\": \"success\"" ++
      String.join (r.data.map (fun kv => ", " ++ jsonQuote kv.1 ++ ": " ++ jsonQuote kv.2)) ++
      "\x7d"

/-- The registry-relevant data of a `BaseTool` (`app/tools/base.py`): unique
`name`, `tier` membership list, fail-safe `timeout_ms`.  `description` and
`params_model` are elided: no claim inspects them. -/
structure ToolDesc where
  name : String
  tier : List String
  timeoutMs : Nat
deriving DecidableEq, Repr

/-- `BaseTool.schema()` emits an OpenAI function schema whose
`function.name` is `self.name`; the `description`/`parameters` payload is
elided (no claim inspects it), so a schema is identified by its function
name. -/
structure ToolSchema where
  fname : String
deriving DecidableEq, Repr

/-- `BaseTool.schema()`. -/
def ToolDesc.schema (t : ToolDesc) : ToolSchema := ⟨t.name⟩

/-- `ToolRegistry` (`app/tools/registry.py`): `_tools` dict modelled as the
insertion-ordered list of registered tools (keys unique in every instance the
program builds; lookup takes the first match). -/
structure ToolRegistry where
  tools : List ToolDesc
deriving DecidableEq, Repr

/-- `ToolRegistry.has_tool`. -/
def ToolRegistry.hasTool (r : ToolRegistry) (name : String) : Bool :=
  r.tools.any (fun t => t.name == name)

/-- `ToolRegistry.get_all_schemas`: schemas of every registered tool,
with no tier filtering. -/
def ToolRegistry.getAllSchemas (r : ToolRegistry) : List ToolSchema :=
  r.tools.map ToolDesc.schema

/-- `ToolRegistry.get_schemas_by_tier`: schemas of the tools whose tier list
contains `tier`. -/
def ToolRegistry.getSchemasByTier (r : ToolRegistry) (tier : String) : List ToolSchema :=
  (r.tools.filter (fun t => t.tier.contains tier)).map ToolDesc.schema

/-- Outcome of awaiting one tool's `execute` under `asyncio.wait_for`, as seen
by `ToolRegistry.execute`'s `try` block. -/
inductive ToolOutcome where
  | ok (r : ToolResult)
  | timeout
  | cancelled
  | exn (e : String)
deriving DecidableEq, Repr

/-- Result of `ToolRegistry.execute`: a JSON string, or a propagating
`asyncio.CancelledError`. -/
inductive ExecResult where
  | ret (s : String)
  | cancelled
deriving DecidableEq, Repr

/-- `ToolRegistry.execute(name, arguments)`.  `runOf` is the oracle giving
each registered tool's effectful `execute` behaviour (keyed by tool name).
Unknown name → error JSON; timeout → error JSON; `CancelledError` re-raised;
other exception → error JSON. -/
def ToolRegistry.execute (runOf : String → Args → ToolOutcome) (r : ToolRegistry)
    (name : String) (args : Args) : ExecResult :=
  match r.tools.find? (fun t => t.name == name) with
  | none => .ret (ToolResult.fail ("未知工具: " ++ name)).toJson
  | some tool =>
    match runOf tool.name args with
    | .ok res => .ret res.toJson
    | .timeout => .ret (ToolResult.fail ("工具 " ++ name ++ " 执行超时（" ++ toString tool.timeoutMs ++ "ms）")).toJson
    | .cancelled => .cancelled
    | .exn e => .ret (ToolResult.fail ("工具执行异常: " ++ e)).toJson

/-- `RestrictedToolRegistry.__init__`: keep exactly the allow-listed names the
parent knows; allow-list entries unknown to the parent are dropped (with a
warning) at construction. -/
def mkRestricted (parent : ToolRegistry) (allowed : List String) : ToolRegistry :=
  ⟨allowed.filterMap (fun n => parent.tools.find? (fun t => t.name == n))⟩

/-- `RestrictedToolRegistry.execute`: names outside the view's `_tools` get a
`PermissionError` result without calling `super().execute`; names inside
dispatch through the inherited `ToolRegistry.execute` on the view. -/
def restrictedExecute (runOf : String → Args → ToolOutcome) (parent : ToolRegistry)
    (allowed : List String) (name : String) (args : Args) : ExecResult :=
  let view := mkRestricted parent allowed
  if view.hasTool name then
    ToolRegistry.execute runOf view name args
  else
    .ret (ToolResult.fail ("PermissionError: 工具 '" ++ name ++ "' 不在此 SubAgent 的授权工具列表中")).toJson

/-- The permission-error JSON emitted by the restricted view. -/
def permissionErrorJson (name : String) : String :=
  (ToolResult.fail ("PermissionError: 工具 '" ++ name ++ "' 不在此 SubAgent 的授权工具列表中")).toJson

/-! ### L1 fast track (`app/execution/l1/fast_track.py`) -/

/-- `_MAX_LOOP_STEPS = 3`. -/
def l1MaxLoopSteps : Nat := 3

/-- The tool schemas the L1 loop passes to the LLM at a given step:
`tool_schemas = self.tool_registry.get_all_schemas()` once, then
`use_tools = tool_schemas if step < _MAX_LOOP_STEPS - 1 else None`. -/
def l1UseTools (r : ToolRegistry) (step : Nat) : Option (List ToolSchema) :=
  if step < l1MaxLoopSteps - 1 then some r.getAllSchemas else none

/-! The registry every execution actually runs with
(`ExecutionRouter.__init__` + `create_builtin_registry`): web_search,
web_fetch (tier defaults `["L1","L3"]` from `BaseTool.tier`), todo_write,
todo_read, skill_call, skill_exec, subagent_call (all `["L3"]`).
`dtms` stands for the `BaseTool.timeout_ms` default the non-overriding tools
read from settings; no schema depends on it.  web_fetch overrides 20000. -/

/-- `WebSearchTool`: default tier, default timeout. -/
def webSearchTool (dtms : Nat) : ToolDesc := ⟨"web_search", ["L1", "L3"], dtms⟩

/-- `WebFetchTool`: default tier, `timeout_ms = 20_000`. -/
def webFetchTool : ToolDesc := ⟨"web_fetch", ["L1", "L3"], 20000⟩

/-- `TodoWriteTool`: `tier = ["L3"]`. -/
def todoWriteTool (dtms : Nat) : ToolDesc := ⟨"todo_write", ["L3"], dtms⟩

/-- `TodoReadTool`: `tier = ["L3"]`. -/
def todoReadTool (dtms : Nat) : ToolDesc := ⟨"todo_read", ["L3"], dtms⟩

/-- `SkillCallTool`: `tier = ["L3"]`. -/
def skillCallTool (dtms : Nat) : ToolDesc := ⟨"skill_call", ["L3"], dtms⟩

/-- `SkillExecTool`: `tier = ["L3"]`. -/
def skillExecTool (dtms : Nat) : ToolDesc := ⟨"skill_exec", ["L3"], dtms⟩

/-- `SubAgentCallTool`: `tier = ["L3"]`. -/
def subagentCallTool (dtms : Nat) : ToolDesc := ⟨"subagent_call", ["L3"], dtms⟩

/-- The shared registry built by `ExecutionRouter.__init__`, in registration
order. -/
def routerToolRegistry (dtms : Nat) : ToolRegistry :=
  ⟨[webSearchTool dtms, webFetchTool, todoWriteTool dtms, todoReadTool dtms,
    skillCallTool dtms, skillExecTool dtms, subagentCallTool dtms]⟩

/-! ### Thinker (`app/execution/l3/thinker.py`) -/

/-- `function` payload of a raw LLM tool call (litellm object). -/
structure RawFunction where
  name : String
  arguments : String
deriving DecidableEq, Repr

/-- One raw tool call returned by the LLM: `id`, `function.name`,
`function.arguments` (a JSON string). -/
structure RawToolCall where
  id : String
  function : RawFunction
deriving DecidableEq, Repr

/-- The LLM client response consumed by `Thinker.think`: `content`,
`tool_calls_raw`, `usage`. -/
structure LLMResponse where
  content : Option String
  toolCallsRaw : Option (List RawToolCall)
  usage : List (String × Nat)
deriving DecidableEq, Repr

/-- `ToolCallRequest` (`app/execution/l3/schemas.py`). -/
structure ToolCallRequest where
  id : String
  name : String
  arguments : Args
deriving DecidableEq

/-- `ThinkResult` (`app/execution/l3/schemas.py`). -/
structure ThinkResult where
  thought : String
  toolCalls : Option (List ToolCallRequest)
  usage : List (String × Nat)
  isDone : Bool

/-- `_safe_json_loads`: `json.loads(s)` with `JSONDecodeError`/`TypeError`
mapped to the empty dict.  `jsonLoads` is the oracle for the `json` library:
`none` models a raised decode error. -/
def safeJsonLoads (jsonLoads : String → Option Args) (s : String) : Args :=
  (jsonLoads s).getD []

/-- `Thinker._parse_tool_calls`: falsy input → `None`; otherwise one
`ToolCallRequest` per raw call, arguments via `_safe_json_loads`; the code's
trailing `result if result else None` collapses an empty result to `None`. -/
def parseToolCalls (jsonLoads : String → Option Args)
    (raw : Option (List RawToolCall)) : Option (List ToolCallRequest) :=
  match raw with
  | none => none
  | some l =>
    if l.isEmpty then none
    else
      let result := l.map (fun tc =>
        ToolCallRequest.mk tc.id tc.function.name (safeJsonLoads jsonLoads tc.function.arguments))
      if result.isEmpty then none else some result

/-- `Thinker.think`: with truthy `tool_schemas` the LLM is called with tools
and `raw_tool_calls = response.tool_calls_raw`; with `None`/empty schemas the
plain chat is used and `raw_tool_calls = None`.  `resp` is the oracle for the
LLM call that the branch performs. -/
def thinkerThink (jsonLoads : String → Option Args) (resp : LLMResponse)
    (toolSchemas : Option (List ToolSchema)) : ThinkResult :=
  let raw := if (toolSchemas.getD []).isEmpty then none else resp.toolCallsRaw
  let thought := resp.content.getD ""
  let parsedCalls := parseToolCalls jsonLoads raw
  let isDone := match parsedCalls with
    | none => true
    | some l => l.isEmpty
  let toolCalls := match parsedCalls with
    | none => none
    | some l => if l.isEmpty then none else some l
  ⟨thought, toolCalls, resp.usage, isDone⟩

/-! ### Actor (`app/execution/l3/actor.py`) -/

/-- `Observation` (`app/execution/l3/schemas.py`); `is_sub_step` elided. -/
structure Observation where
  toolName : String
  toolCallId : String
  arguments : Args
  result : String
  durationMs : Nat
deriving DecidableEq

/-- A chat message as built by Actor/engine: role, content, optional
`tool_call_id` (tool messages), and for assistant messages the serialized
`tool_calls` payload as (id, name, `json.dumps(arguments)`) triples. -/
structure ChatMsg where
  role : String
  content : String
  toolCallId : Option String
  toolCalls : List (String × String × String)
deriving DecidableEq

/-- `ActResult` (`app/execution/l3/schemas.py`). -/
structure ActResult where
  observations : List Observation
  messages : List ChatMsg

/-- What `asyncio.gather(..., return_exceptions=True)` yields for one
`_execute_one(tc)`: the `(result_str, duration_ms)` pair, a captured
exception, or cancellation of the step. -/
inductive CallOutcome where
  | ret (s : String) (durationMs : Nat)
  | exn (e : String)
  | cancelled
deriving DecidableEq

/-- Whether a gather slot is a cancellation. -/
def CallOutcome.isCancelled : CallOutcome → Bool
  | .cancelled => true
  | _ => false

/-- `Actor._build_assistant_message`; `dumps` is the `json.dumps` oracle for
the arguments dict. -/
def buildAssistantMessage (dumps : Args → String) (tr : ThinkResult) : ChatMsg :=
  ⟨"assistant", tr.thought, none,
    (tr.toolCalls.getD []).map (fun tc => (tc.id, tc.name, dumps tc.arguments))⟩

/-- One iteration of the merge loop `for tc, result in zip(tool_calls,
results)`: an exception slot becomes a `ToolResult.fail` JSON with duration 0
at that position (the `.cancelled` arm is unreachable under `act`'s guard —
see `actorAct`). -/
def mergeObservation (p : ToolCallRequest × CallOutcome) : Observation :=
  match p.2 with
  | .ret s d => ⟨p.1.name, p.1.id, p.1.arguments, s, d⟩
  | .exn e => ⟨p.1.name, p.1.id, p.1.arguments, (ToolResult.fail ("执行异常: " ++ e)).toJson, 0⟩
  | .cancelled => ⟨p.1.name, p.1.id, p.1.arguments, "", 0⟩

/-- The `tool` message appended for one observation. -/
def toolMessageOf (o : Observation) : ChatMsg :=
  ⟨"tool", o.result, some o.toolCallId, []⟩

/-- `Actor.act`.  `results` is the positional gather outcome for
`think_result.tool_calls` (the code zips the two).  A cancellation delivered
to the step propagates out of `act` (awaiting a cancelled gather raises);
captured ordinary exceptions are merged by `mergeObservation`. -/
def actorAct (dumps : Args → String) (tr : ThinkResult) (results : List CallOutcome) :
    Except String ActResult :=
  match tr.toolCalls with
  | none => .ok ⟨[], []⟩
  | some calls =>
    if calls.isEmpty then .ok ⟨[], []⟩
    else if results.any CallOutcome.isCancelled then .error "CancelledError"
    else
      let observations := (calls.zip results).map mergeObservation
      .ok ⟨observations, buildAssistantMessage dumps tr :: observations.map toolMessageOf⟩

/-! ### Observer, TokenBudget, graceful degradation
(`app/execution/l3/{observer,token_budget,react_engine,schemas}.py`) -/

/-- `L3Config`; `timeout_seconds` (a float) abstracted to whole seconds. -/
structure L3Config where
  maxIterations : Nat
  timeoutSeconds : Nat
  maxLlmCalls : Nat
deriving DecidableEq, Repr

/-- `TokenBudget` (`app/execution/l3/token_budget.py`): only the LLM call
counter remains (token counting was removed). -/
structure TokenBudget where
  config : L3Config
  llmCallCount : Nat
deriving DecidableEq, Repr

/-- `TokenBudget.is_exhausted`: `llm_call_count >= config.max_llm_calls`. -/
def TokenBudget.isExhausted (b : TokenBudget) : Bool :=
  b.config.maxLlmCalls ≤ b.llmCallCount

/-- `TokenBudget.to_dict`: returns `\x7b"llm_calls": …\x7d` — and nothing
else. -/
def TokenBudget.toDict (b : TokenBudget) : List (String × Nat) :=
  [("llm_calls", b.llmCallCount)]

/-- Python `d[k]` on a dict: `some` the value, `none` models the raised
`KeyError`. -/
def dictLookup (d : List (String × Nat)) (k : String) : Option Nat :=
  (d.find? (fun kv => kv.1 == k)).map (fun kv => kv.2)

/-- One recorded `(tool, result)` observation of a trace step
(`ThinkActObserve.observations` entries). -/
structure TraceObs where
  tool : String
  result : String
deriving DecidableEq

/-- `ThinkActObserve`: per-step trace record (`actions`, `tokens_used`,
`duration_ms` elided — no claim inspects them). -/
structure TraceStep where
  step : Nat
  thought : String
  observations : List TraceObs
deriving DecidableEq

/-- `ReasoningTrace`. -/
structure ReasoningTrace where
  steps : List TraceStep
deriving DecidableEq

/-- `ReasoningTrace.summarize_observations`: one `- tool: result[:500]` line
per recorded observation, joined by newlines. -/
def summarizeObservations (t : ReasoningTrace) : String :=
  String.intercalate "\n"
    ((t.steps.map (fun s =>
      s.observations.map (fun o => "- " ++ o.tool ++ ": " ++ o.result.take 500))).flatten)

/-- `Observer` state at a stop check: config, trace, budget, elapsed time. -/
structure Observer where
  config : L3Config
  trace : ReasoningTrace
  budget : TokenBudget
  elapsedSeconds : Nat
deriving DecidableEq

/-- `ExecutionResult` (`app/execution/schemas.py`), fields the claims read. -/
structure ExecutionResult where
  reply : String
  source : String
  iterations : Nat
  tokenUsage : List (String × Nat)
  isDegraded : Bool
  degradeReason : Option String
deriving DecidableEq

/-- `Observer.should_stop`: timeout first, then budget.  The budget branch
evaluates `self.budget.to_dict()["total_tokens"]` while building its
`log.warning` arguments; a missing key is a raised `KeyError`. -/
def observerShouldStop (o : Observer) : Except String (Bool × Option String) :=
  if o.config.timeoutSeconds < o.elapsedSeconds then
    .ok (true, some "timeout")
  else if o.budget.isExhausted then
    match dictLookup o.budget.toDict "total_tokens" with
    | none => .error "KeyError: total_tokens"
    | some _ => .ok (true, some "budget")
  else
    .ok (false, none)

/-- `L3ReActEngine._graceful_degrade`: build the degradation reply from the
collected observations (or a canned apology), then evaluate
`observer.budget.to_dict()["total_tokens"]` for `log.warning` — a missing key
is a raised `KeyError` — and only then return the degraded result. -/
def gracefulDegrade (o : Observer) (reason : String) : Except String ExecutionResult :=
  let summary := summarizeObservations o.trace
  let reply :=
    if summary ≠ "" then
      "由于处理时间/资源限制，我基于已收集到的信息为您总结：\n\n" ++ summary ++
        "\n\n如需更详细的分析，建议您缩小问题范围后重新提问。"
    else
      "抱歉，该问题的分析超出了当前处理能力限制。建议您简化问题或拆分为多个小问题后重试。"
  match dictLookup o.budget.toDict "total_tokens" with
  | none => .error "KeyError: total_tokens"
  | some _ =>
    .ok ⟨reply, "deep_l3", o.trace.steps.length, o.budget.toDict, true, some reason⟩

/-! ### Ambient context and sub-agent meta-tool
(`app/execution/agent_context.py`, `app/execution/session_context.py`,
`app/tools/builtin_tools/subagent_call.py`, `app/todo/store.py`) -/

/-- The two ambient `ContextVar`s: `agent_depth` (default 0) and `session_id`
(default `""`).  `set` returns a token capturing the previous value;
`reset(token)` restores exactly that value. -/
structure Ambient where
  agentDepth : Nat
  sessionId : String
deriving DecidableEq, Repr

/-- The Redis keyspace visible to `TodoStore` (key → stored JSON string);
TTLs elided. -/
def CacheState := List (String × String)
deriving DecidableEq

/-- One observable Redis access performed by `TodoStore`. -/
inductive CacheOp where
  | read (key : String)
  | write (key : String) (value : String)
deriving DecidableEq

/-- `RedisKeys.todo(session_id)`. -/
def todoKey (sessionId : String) : String := "todo:" ++ sessionId

/-- Dict lookup in the cache. -/
def cacheLookup (c : CacheState) (k : String) : Option String :=
  (c.find? (fun kv => kv.1 == k)).map (fun kv => kv.2)

/-- Overwrite-set in the cache. -/
def cacheInsert (c : CacheState) (k v : String) : CacheState :=
  (k, v) :: c.filter (fun kv => kv.1 ≠ k)

/-- `TodoItem` (`app/todo/schemas.py`), string fields. -/
structure Todo where
  id : String
  content : String
  status : String
  priority : String
deriving DecidableEq

/-- `TodoStore.get(session_id)`: empty session id → `[]` with no Redis
access; else one read of `todo:<sid>` (`parse` is the `json.loads` oracle;
a decode failure degrades to `[]` — the catch-all also covers it). -/
def todoStoreGet (parse : String → Option (List Todo)) (sessionId : String)
    (c : CacheState) : List Todo × List CacheOp :=
  if sessionId = "" then ([], [])
  else
    match cacheLookup c (todoKey sessionId) with
    | none => ([], [.read (todoKey sessionId)])
    | some raw => ((parse raw).getD [], [.read (todoKey sessionId)])

/-- `TodoStore.set(session_id, todos)`: empty session id → no Redis access;
else overwrite `todo:<sid>` with `json.dumps(todos)` (`dump` oracle). -/
def todoStoreSet (dump : List Todo → String) (sessionId : String)
    (todos : List Todo) (c : CacheState) : CacheState × List CacheOp :=
  if sessionId = "" then (c, [])
  else (cacheInsert c (todoKey sessionId) (dump todos),
        [.write (todoKey sessionId) (dump todos)])

/-- `SubAgentConfig` (`app/subagents/loader.py`), the fields
`subagent_call` reads. -/
structure SubAgentConfig where
  name : String
  description : String
  type : String
  systemPrompt : String
  toolFilter : Option (List String)
  entry : String
  endpoint : String
  maxIterations : Nat
  timeoutMs : Nat
  maxDepth : Nat
deriving DecidableEq

/-- Outcome of awaiting `sub_engine.execute_raw(messages)`: a result, or a
propagating exception. -/
inductive EngOutcome where
  | ok (r : ExecutionResult)
  | raise (e : String)

/-- Behaviour of the nested L3 engine run: it sees the ambient context set
for the subtree and may touch the ambient vars and the Todo cache; it
reports an outcome, the final ambient, the final cache and the list of
cache accesses it performed. -/
def EngineRun := Ambient → CacheState → EngOutcome × Ambient × CacheState × List CacheOp

/-- `SubAgentCallTool._execute_local_l3`: push `agent_depth := depth+1` and
`session_id := ""` (the set tokens capture the previous values), run the
sub-engine, and in `finally` reset both vars to the token values on every
exit path; a raised exception propagates after the resets. -/
def executeLocalL3 (cfg : SubAgentConfig) (currentDepth : Nat) (engineRun : EngineRun)
    (amb : Ambient) (cache : CacheState) :
    Except String ToolResult × Ambient × CacheState × List CacheOp :=
  let depthToken := amb.agentDepth
  let sidToken := amb.sessionId
  let stepped := engineRun ⟨currentDepth + 1, ""⟩ cache
  let ambReset : Ambient := ⟨depthToken, sidToken⟩
  match stepped.1 with
  | .raise e => (.error e, ambReset, stepped.2.2.1, stepped.2.2.2)
  | .ok r =>
    (.ok (ToolResult.success
      [("agent", cfg.name), ("report", r.reply),
       ("iterations", toString r.iterations),
       ("tokens_used", toString ((dictLookup r.tokenUsage "total_tokens").getD 0)),
       ("is_degraded", toString r.isDegraded)]),
     ambReset, stepped.2.2.1, stepped.2.2.2)

/-- Result of `entry` resolution in `_execute_local_code` (rsplit parse,
`importlib` load, `LocalAgentExecutor` subclass check) — all happen before
the ambient context is touched. -/
inductive EntryLoad where
  | parseError
  | loadError (e : String)
  | notSubclass
  | loaded

/-- Outcome of `executor.execute(task)` in `_execute_local_code`: a report,
a caught `Exception`, or a propagating non-`Exception` (cancellation). -/
inductive CodeOutcome where
  | ok (report : String)
  | exc (e : String)
  | raise (e : String)

/-- Behaviour of the loaded local-code executor (same shape as
`EngineRun`). -/
def CodeRun := Ambient → CacheState → CodeOutcome × Ambient × CacheState × List CacheOp

/-- `SubAgentCallTool._execute_local_code`: entry-resolution failures return
before any ambient mutation; otherwise depth+1/empty-session are pushed, the
executor runs, a caught exception becomes a failed `ToolResult`, and the
`finally` resets both ambient vars on every exit path. -/
def executeLocalCode (cfg : SubAgentConfig) (currentDepth : Nat) (entryLoad : EntryLoad)
    (codeRun : CodeRun) (amb : Ambient) (cache : CacheState) :
    Except String ToolResult × Ambient × CacheState × List CacheOp :=
  match entryLoad with
  | .parseError =>
    (.ok (ToolResult.fail ("entry 格式错误（期望 'module.path::ClassName'）：" ++ cfg.entry)),
     amb, cache, [])
  | .loadError e =>
    (.ok (ToolResult.fail ("无法加载 entry '" ++ cfg.entry ++ "'：" ++ e)), amb, cache, [])
  | .notSubclass =>
    (.ok (ToolResult.fail (cfg.entry ++ " 必须是 LocalAgentExecutor 的子类")), amb, cache, [])
  | .loaded =>
    let depthToken := amb.agentDepth
    let sidToken := amb.sessionId
    let stepped := codeRun ⟨currentDepth + 1, ""⟩ cache
    let ambReset : Ambient := ⟨depthToken, sidToken⟩
    match stepped.1 with
    | .ok report =>
      (.ok (ToolResult.success [("agent", cfg.name), ("report", report)]),
       ambReset, stepped.2.2.1, stepped.2.2.2)
    | .exc e =>
      (.ok (ToolResult.fail ("SubAgent '" ++ cfg.name ++ "' 执行失败：" ++ e)),
       ambReset, stepped.2.2.1, stepped.2.2.2)
    | .raise e => (.error e, ambReset, stepped.2.2.1, stepped.2.2.2)

/-- Outcome of the outbound HTTP POST in `_execute_http`: parsed report,
`httpx.TimeoutException`, `httpx.HTTPStatusError`, another caught
`Exception`, or a propagating non-`Exception` (cancellation). -/
inductive HttpOutcome where
  | ok (report : String)
  | timeout
  | statusError (code : Nat)
  | exc (e : String)
  | raise (e : String)

/-- `SubAgentCallTool._execute_http`: depth+1/empty-session are pushed, the
external POST runs (it cannot touch local ambient state or the Todo cache),
caught errors become failed `ToolResult`s, and the `finally` resets both
ambient vars on every exit path. -/
def executeHttp (cfg : SubAgentConfig) (_currentDepth : Nat) (httpOut : HttpOutcome)
    (amb : Ambient) (cache : CacheState) :
    Except String ToolResult × Ambient × CacheState × List CacheOp :=
  let depthToken := amb.agentDepth
  let sidToken := amb.sessionId
  let ambReset : Ambient := ⟨depthToken, sidToken⟩
  match httpOut with
  | .ok report =>
    (.ok (ToolResult.success [("agent", cfg.name), ("report", report)]), ambReset, cache, [])
  | .timeout =>
    (.ok (ToolResult.fail ("外部 Agent '" ++ cfg.name ++ "' 请求超时（" ++
      toString (cfg.timeoutMs / 1000) ++ "s）")), ambReset, cache, [])
  | .statusError code =>
    (.ok (ToolResult.fail ("外部 Agent '" ++ cfg.name ++ "' 返回错误状态码 " ++
      toString code)), ambReset, cache, [])
  | .exc e =>
    (.ok (ToolResult.fail ("外部 Agent '" ++ cfg.name ++ "' 请求失败：" ++ e)),
     ambReset, cache, [])
  | .raise e => (.error e, ambReset, cache, [])

/-- `SubAgentRegistry`: name → config dict as an ordered list. -/
structure SubAgentRegistry where
  agents : List SubAgentConfig

/-- `SubAgentRegistry.get`. -/
def SubAgentRegistry.get (r : SubAgentRegistry) (name : String) : Option SubAgentConfig :=
  r.agents.find? (fun a => a.name == name)

/-- The depth-cap refusal message of `SubAgentCallTool.execute`. -/
def depthExceededMsg (agentName : String) (maxDepth : Nat) : String :=
  "SubAgent '" ++ agentName ++ "' 嵌套深度已达上限 " ++ toString maxDepth ++
    "，请在当前 Agent 中直接处理此任务"

/-- `SubAgentCallTool.execute(args)`: empty params → error; unknown agent →
error; `current_depth >= config.max_depth` → depth-cap error (before any
backend dispatch); otherwise route to the backend named by `config.type`.
The backends' behaviours are the oracle parameters; list `repr` formatting of
`agent_names` is abstracted by `toString`. -/
def subagentExecute (registry : SubAgentRegistry) (engineRun : EngineRun)
    (entryLoad : EntryLoad) (codeRun : CodeRun) (httpOut : HttpOutcome)
    (agentName task : String) (amb : Ambient) (cache : CacheState) :
    Except String ToolResult × Ambient × CacheState × List CacheOp :=
  if agentName = "" ∨ task = "" then
    (.ok (ToolResult.fail "agent_name 和 task 参数不能为空"), amb, cache, [])
  else
    match registry.get agentName with
    | none =>
      (.ok (ToolResult.fail ("未知 SubAgent: " ++ agentName ++ "，可用列表: " ++
        toString (registry.agents.map (fun a => a.name)))), amb, cache, [])
    | some cfg =>
      let currentDepth := amb.agentDepth
      if cfg.maxDepth ≤ currentDepth then
        (.ok (ToolResult.fail (depthExceededMsg agentName cfg.maxDepth)), amb, cache, [])
      else if cfg.type = "local_l3" then
        executeLocalL3 cfg currentDepth engineRun amb cache
      else if cfg.type = "local_code" then
        executeLocalCode cfg currentDepth entryLoad codeRun amb cache
      else if cfg.type = "http" then
        executeHttp cfg currentDepth httpOut amb cache
      else
        (.ok (ToolResult.fail ("未知 SubAgent 类型: " ++ cfg.type)), amb, cache, [])

/-- A Todo operation a sub-agent's loop may perform (`todo_write` /
`todo_read` tool bodies end in `TodoStore.set` / `TodoStore.get` under the
ambient session id). -/
inductive TodoOp where
  | write (todos : List Todo)
  | read

/-- Interpret a sequence of Todo operations against the store under a fixed
ambient session id (the sub-engine never rebinds `session_id`; nested
sub-agent calls set it to `""` and reset, so the subtree value is constant),
collecting the Redis accesses. -/
def runTodoProgram (dump : List Todo → String) (parse : String → Option (List Todo))
    (sessionId : String) (ops : List TodoOp) (c : CacheState) : CacheState × List CacheOp :=
  match ops with
  | [] => (c, [])
  | .write todos :: rest =>
    let s := todoStoreSet dump sessionId todos c
    let r := runTodoProgram dump parse sessionId rest s.1
    (r.1, s.2 ++ r.2)
  | .read :: rest =>
    let g := todoStoreGet parse sessionId c
    let r := runTodoProgram dump parse sessionId rest c
    (r.1, g.2 ++ r.2)

/-- A sub-engine whose effect on shared state is a Todo-operation program run
under the ambient session id (each `todo_write`/`todo_read` executed inside
the subtree reads `get_session_id()`), finishing with `outcome`. -/
def engineRunWithTodos (dump : List Todo → String) (parse : String → Option (List Todo))
    (ops : List TodoOp) (outcome : EngOutcome) : EngineRun :=
  fun amb cache =>
    let r := runTodoProgram dump parse amb.sessionId ops cache
    (outcome, amb, r.1, r.2)

/-! ### Todo reminder injection
(`app/execution/l3/react_engine.py` `_inject_todo_reminder`,
`app/prompts/markers.py`) -/

/-- `TODO_REMINDER_MARKER` from `app/prompts/markers.py`, as a character
list (string algorithms below run over `List Char`). -/
def todoReminderMarker : List Char := "\n\n---\n<!-- todo-reminder-start -->".toList

/-- Python `text.find(pat)`-style first-occurrence search: `some i` is the
least index at which `pat` occurs in `text`, `none` if it does not occur.
(`str.index` raises where this is `none`; the engine guards with `in`.) -/
def findSub (pat : List Char) : List Char → Option Nat
  | [] => if pat.isPrefixOf ([] : List Char) then some 0 else none
  | c :: rest =>
    if pat.isPrefixOf (c :: rest) then some 0
    else (findSub pat rest).map (· + 1)

/-- `base[: base.index(MARKER)] if MARKER in base else base`: strip a
previously injected block. -/
def stripMarker (content : List Char) : List Char :=
  match findSub todoReminderMarker content with
  | some i => content.take i
  | none => content

/-- Whether a pattern has a nontrivial border (`pat.drop k` a prefix of
`pat` for some `0 < k < pat.length`): exactly the patterns for which an
occurrence can overlap the boundary of `base ++ pat`.  The injection marker
is border-free, which pins the first occurrence inside the rewritten system
prompt to the start of the injected block. -/
def hasBorderB (pat : List Char) : Bool :=
  (List.range pat.length).any
    (fun k => decide (0 < k) && pat.drop k == pat.take (pat.length - k))

/-- A message as `_inject_todo_reminder` sees it (`role`/`content` of the
plain dicts; content kept as `List Char`). -/
structure SysMsg where
  role : String
  content : List Char
deriving DecidableEq

/-- The injected status block: the marker followed by the header, the
```json fenced `json.dumps(todos …)` snapshot (`dump` oracle) and the end
marker. -/
def todoReminderBlock (dump : List Todo → List Char) (todos : List Todo) : List Char :=
  todoReminderMarker ++
    "\n当前 Todo 列表（自动同步，请检查进度并继续执行）：\n```json\n".toList ++
    dump todos ++ "\n```\n<!-- todo-reminder-end -->".toList

/-- A Todo item counts as active when pending or in progress. -/
def todoIsActive (t : Todo) : Bool :=
  t.status == "pending" || t.status == "in_progress"

/-- `L3ReActEngine._inject_todo_reminder(messages)` for a fixed snapshot
`todos` (the value `TodoStore.get(session_id)` returns on this call): no-op
without a session id, an empty list or a non-system head; otherwise rewrite
only `messages[0].content` — strip any previous block, return the stripped
prompt when no Todo is active (the unchanged list if stripping changed
nothing), else append a fresh block.  No message is ever appended. -/
def injectTodoReminder (sessionId : String) (todos : List Todo)
    (dump : List Todo → List Char) (messages : List SysMsg) : List SysMsg :=
  if sessionId = "" then messages
  else
    match messages with
    | [] => messages
    | m0 :: rest =>
      if m0.role ≠ "system" then m0 :: rest
      else
        let active := todos.filter todoIsActive
        let base := stripMarker m0.content
        if active.isEmpty then
          if m0.content = base then m0 :: rest
          else ⟨"system", base⟩ :: rest
        else
          ⟨"system", base ++ todoReminderBlock dump todos⟩ :: rest

/-! ### Skill registry and skill_exec
(`app/skills/{loader,registry}.py`, `app/tools/builtin_tools/skill_exec.py`) -/

/-- `ScriptTool` (`app/skills/loader.py`): allow-list entry for one script in
a skill's `scripts/` directory; `tool_name = f"\x7bskill.name\x7d_\x7bstem\x7d"`
is built by the loader, `script_path` is the script's absolute path
(modelled as a string). -/
structure ScriptTool where
  toolName : String
  scriptPath : String
deriving DecidableEq

/-- `MarkdownSkill`, the fields the skill_exec path reads (`description`,
`body_md`, `skill_dir` elided). -/
structure MarkdownSkill where
  name : String
  scriptTools : List ScriptTool
  timeoutMs : Nat
deriving DecidableEq

/-- `SkillRegistry`: name → skill dict as an ordered list. -/
structure SkillRegistry where
  skills : List MarkdownSkill
deriving DecidableEq

/-- Dict lookup `self._skills.get(name)`. -/
def SkillRegistry.find (r : SkillRegistry) (name : String) : Option MarkdownSkill :=
  r.skills.find? (fun s => s.name == name)

/-- `SkillRegistry.get_script_path`: `none` when the skill is unknown or no
allow-list entry is named `<skill>_<script>`; otherwise that entry's path. -/
def SkillRegistry.getScriptPath (r : SkillRegistry) (skillName scriptName : String) :
    Option String :=
  match r.find skillName with
  | none => none
  | some sk =>
    (sk.scriptTools.find? (fun st => st.toolName == skillName ++ "_" ++ scriptName)).map
      (fun st => st.scriptPath)

/-- Python `str.removeprefix`. -/
def dropLeading (p s : String) : String :=
  if p.isPrefixOf s then s.drop p.length else s

/-- `SkillRegistry.get_script_names`: `none` for an unknown skill, else the
allow-listed names with the `<skill>_` prefix removed. -/
def SkillRegistry.getScriptNames (r : SkillRegistry) (skillName : String) :
    Option (List String) :=
  match r.find skillName with
  | none => none
  | some sk => some (sk.scriptTools.map (fun st => dropLeading (skillName ++ "_") st.toolName))

/-- `SkillRegistry.get_skill_timeout_s`, kept in milliseconds (the code
divides by 1000; the float is abstracted): unknown skill → 60s default. -/
def SkillRegistry.getSkillTimeoutMs (r : SkillRegistry) (skillName : String) : Nat :=
  match r.find skillName with
  | none => 60000
  | some sk => sk.timeoutMs

/-- Python `repr` of the allowed-script list in the refusal message
(`f"…\x7ballowed or '（无）'\x7d"`), abstracted by `toString`. -/
def renderAllowed (allowed : List String) : String :=
  if allowed.isEmpty then "（无）" else toString allowed

/-- Python `str.strip()` (whitespace trimming on both ends), implemented
over the character list. -/
def pyStrip (s : String) : String :=
  String.mk (((s.toList.dropWhile Char.isWhitespace).reverse.dropWhile Char.isWhitespace).reverse)

/-- `SkillExecTool.execute(args)`.  `runner path args timeoutMs` is the
oracle for `_run_script` (subprocess protocol); the second component of the
result records the script path a subprocess was started on, if any.  Names
are `.strip()`ped before the falsiness check and the allow-list lookup. -/
def skillExecExecute (reg : SkillRegistry) (runner : String → Args → Nat → ToolResult)
    (skillName scriptName : String) (scriptArgs : Args) : ToolResult × Option String :=
  let sn := pyStrip skillName
  let sc := pyStrip scriptName
  if sn = "" ∨ sc = "" then
    (ToolResult.fail "skill_name 和 script 均为必填参数", none)
  else
    match reg.getScriptPath sn sc with
    | none =>
      match reg.getScriptNames sn with
      | none => (ToolResult.fail ("未知 Skill: " ++ sn), none)
      | some allowed =>
        (ToolResult.fail ("Skill '" ++ sn ++ "' 中不存在脚本 '" ++ sc ++ "'，可用脚本：" ++
          renderAllowed allowed), none)
    | some path =>
      (runner path scriptArgs (reg.getSkillTimeoutMs sn), some path)

/-- The set of script paths a registry's allow-list enumerates. -/
def SkillRegistry.allowedPaths (r : SkillRegistry) : List String :=
  (r.skills.map (fun sk => sk.scriptTools.map (fun st => st.scriptPath))).flatten

/-! ### Concrete fixtures used by witnesses and counterexamples -/

/-- Witness parent registry: web tools plus an extra `danger_tool`
(scenario E6 of the spec). -/
def sampleParentRegistry : ToolRegistry :=
  ⟨[⟨"web_search", ["L1", "L3"], 30000⟩, ⟨"web_fetch", ["L1", "L3"], 20000⟩,
    ⟨"danger_tool", ["L1", "L3"], 30000⟩]⟩

/-- Witness benign tool behaviour. -/
def sampleRunOf : String → Args → ToolOutcome := fun _ _ => .ok (ToolResult.success [])

/-- Witness sub-agent: `researcher`, `local_l3`, `max_depth = 2`. -/
def sampleAgent : SubAgentConfig :=
  ⟨"researcher", "d", "local_l3", "p", none, "", "", 5, 60000, 2⟩

/-- Witness sub-agent registry holding only `researcher`. -/
def sampleAgentRegistry : SubAgentRegistry := ⟨[sampleAgent]⟩

/-- Witness engine behaviour: returns a fixed result, leaves state alone. -/
def sampleEngineRun : EngineRun :=
  fun a c => (.ok ⟨"r", "deep_l3", 1, [], false, none⟩, a, c, [])

/-- Witness local-code behaviour. -/
def sampleCodeRun : CodeRun := fun a c => (.ok "r", a, c, [])

/-- Witness skill registry: skill `github` with one allow-listed script. -/
def sampleSkillRegistry : SkillRegistry :=
  ⟨[⟨"github", [⟨"github_search_repos", "/skills/github/scripts/search_repos.py"⟩], 120000⟩]⟩

/-- Witness subprocess behaviour. -/
def sampleRunner : String → Args → Nat → ToolResult := fun _ _ _ => ToolResult.success []

/-- Witness JSON oracle that rejects every arguments string. -/
def rejectAllJson : String → Option Args := fun _ => none

/-- Witness raw tool call with undecodable arguments. -/
def sampleRawCall : RawToolCall := ⟨"c1", ⟨"web_search", "bad"⟩⟩

/-- Witness LLM response carrying `sampleRawCall`. -/
def sampleResponse : LLMResponse := ⟨some "t", some [sampleRawCall], []⟩

/-- Witness `json.dumps` oracle for argument dicts. -/
def sampleDumps : Args → String := fun _ => ""

/-- Witness tool-call requests of one think step. -/
def sampleCalls : List ToolCallRequest := [⟨"id1", "web_search", []⟩, ⟨"id2", "web_fetch", []⟩]

/-- Witness think result carrying `sampleCalls`. -/
def sampleThink : ThinkResult := ⟨"th", some sampleCalls, [], false⟩

/-- Witness gather outcome in which the second slot was cancelled. -/
def sampleResultsCancel : List CallOutcome := [.ret "ok" 5, .cancelled]

/-! ## Theorems -/

/-- Helper: `to_dict` of the call-count budget holds no `total_tokens` key. -/
theorem dictLookup_toDict_total_tokens (b : TokenBudget) :
    dictLookup b.toDict "total_tokens" = none := by
  simp [dictLookup, TokenBudget.toDict, List.find?]

/-- C1: whenever the L3 loop degrades (`Observer.should_stop` fired), the
degradation path itself raises: `_graceful_degrade` evaluates
`observer.budget.to_dict()["total_tokens"]` while building its `log.warning`
call, and `TokenBudget.to_dict` only carries `llm_calls`, so every
degradation attempt ends in a raised `KeyError` instead of returning the
degraded `ExecutionResult`; the budget branch of `should_stop` raises the
same `KeyError` even before the degrade call. -/
theorem l3DegradationRaisesKeyError (o : Observer) (reason : String) :
    gracefulDegrade o reason = Except.error "KeyError: total_tokens" := by
  unfold gracefulDegrade
  rw [dictLookup_toDict_total_tokens]

/-- C1 auxiliary: at the concrete failing input — a fresh observer over
`L3Config(max_iterations := 5, timeout_seconds := 120, max_llm_calls := 0)`,
no steps recorded, zero elapsed time — the very first `should_stop` check of
`execute` raises `KeyError: total_tokens` (budget branch), so the L3 engine
raises instead of degrading. -/
theorem shouldStopRaisesAtBudgetCheck :
    observerShouldStop ⟨⟨5, 120, 0⟩, ⟨[]⟩, ⟨⟨5, 120, 0⟩, 0⟩, 0⟩ =
      Except.error "KeyError: total_tokens" := by
  rfl

/-- C2 counterexample: with the registry the router actually builds, the L1
loop's non-final steps do not pass the tier-L1 schemas — `todo_write`
(tier `["L3"]` only) is among the schemas passed at step 0.  (The
`BaseTool.timeout_ms` settings default is instantiated at 0; no schema
depends on it.) -/
theorem l1SchemasNotTierFiltered :
    l1UseTools (routerToolRegistry 0) 0 ≠
      some ((routerToolRegistry 0).getSchemasByTier "L1") ∧
    ToolSchema.mk "todo_write" ∈ (l1UseTools (routerToolRegistry 0) 0).getD [] ∧
    (todoWriteTool 0).tier = ["L3"] := by
  decide

/-- C2 (amended): each non-final L1 loop step calls the LLM with
`get_all_schemas()` — the schemas of every tool registered in the shared
registry regardless of tier, so L3-only tools are included. -/
theorem l1UseToolsAllSchemas (r : ToolRegistry) (step : Nat)
    (h : step < l1MaxLoopSteps - 1) :
    l1UseTools r step = some r.getAllSchemas := by
  simp [l1UseTools, h]

/-- C2 witness: step 0 is non-final and passes all schemas of the router
registry. -/
theorem l1UseToolsAllSchemas_witness :
    0 < l1MaxLoopSteps - 1 ∧
      l1UseTools (routerToolRegistry 30000) 0 =
        some (routerToolRegistry 30000).getAllSchemas :=
  ⟨by decide, l1UseToolsAllSchemas (routerToolRegistry 30000) 0 (by decide)⟩

/-- Helper: every tool in a restricted view bears a name from the
allow-list. -/
theorem mem_mkRestricted_name (parent : ToolRegistry) (allowed : List String)
    (t : ToolDesc) (ht : t ∈ (mkRestricted parent allowed).tools) :
    t.name ∈ allowed := by
  simp only [mkRestricted, List.mem_filterMap] at ht
  obtain ⟨n, hn, hfind⟩ := ht
  have := List.find?_some hfind
  simp only [beq_iff_eq] at this
  rwa [this]

/-- Helper: a name the parent does not know is not in the restricted view. -/
theorem mem_mkRestricted_parent (parent : ToolRegistry) (allowed : List String)
    (t : ToolDesc) (ht : t ∈ (mkRestricted parent allowed).tools) :
    t ∈ parent.tools := by
  simp only [mkRestricted, List.mem_filterMap] at ht
  obtain ⟨n, hn, hfind⟩ := ht
  exact List.mem_of_find?_eq_some hfind

/-- C3: the restricted view physically blocks any tool name outside the
allow-list — `execute` returns the `PermissionError` result for every
possible parent-tool behaviour (`runOf`), whether or not the parent registry
holds that name; and an allow-list entry the parent does not know is dropped
at construction, so it too is refused at execution, never resolved later. -/
theorem restrictedViewBlocksOutsideAllowList (parent : ToolRegistry)
    (allowed : List String) (runOf : String → Args → ToolOutcome)
    (name : String) (args : Args) :
    (name ∉ allowed →
      restrictedExecute runOf parent allowed name args = .ret (permissionErrorJson name)) ∧
    (parent.hasTool name = false →
      restrictedExecute runOf parent allowed name args = .ret (permissionErrorJson name)) := by
  constructor
  · intro hna
    have hv : (mkRestricted parent allowed).hasTool name = false := by
      cases hh : (mkRestricted parent allowed).hasTool name with
      | false => rfl
      | true =>
        exfalso
        simp only [ToolRegistry.hasTool, List.any_eq_true, beq_iff_eq] at hh
        obtain ⟨t, ht, hbeq⟩ := hh
        exact hna (hbeq ▸ mem_mkRestricted_name parent allowed t ht)
    simp [restrictedExecute, hv, permissionErrorJson]
  · intro hnp
    have hv : (mkRestricted parent allowed).hasTool name = false := by
      cases hh : (mkRestricted parent allowed).hasTool name with
      | false => rfl
      | true =>
        exfalso
        simp only [ToolRegistry.hasTool, List.any_eq_true, beq_iff_eq] at hh
        obtain ⟨t, ht, hbeq⟩ := hh
        have hmem := mem_mkRestricted_parent parent allowed t ht
        have htrue : parent.hasTool name = true := by
          simp only [ToolRegistry.hasTool, List.any_eq_true, beq_iff_eq]
          exact ⟨t, hmem, hbeq⟩
        rw [hnp] at htrue
        cases htrue
    simp [restrictedExecute, hv, permissionErrorJson]

/-- C3 witness: a parent holding `web_search`/`web_fetch`/`danger_tool`, an
allow-list of `web_search` only; the off-list guess `danger_tool` is refused
although the parent has it, and the allow-list entry `ghost_tool` unknown to
the parent is refused as well. -/
theorem restrictedViewBlocks_witness :
    ("danger_tool" ∉ ["web_search"] ∧
      restrictedExecute sampleRunOf sampleParentRegistry
        ["web_search"] "danger_tool" [] = .ret (permissionErrorJson "danger_tool")) ∧
    (sampleParentRegistry.hasTool "ghost_tool" = false ∧
      restrictedExecute sampleRunOf sampleParentRegistry
        ["web_search", "ghost_tool"] "ghost_tool" [] = .ret (permissionErrorJson "ghost_tool")) :=
  ⟨⟨by decide,
    (restrictedViewBlocksOutsideAllowList sampleParentRegistry ["web_search"] sampleRunOf
      "danger_tool" []).1 (by decide)⟩,
   ⟨by decide,
    (restrictedViewBlocksOutsideAllowList sampleParentRegistry ["web_search", "ghost_tool"]
      sampleRunOf "ghost_tool" []).2 (by decide)⟩⟩

/-- C4: a `subagent_call` for a registered agent at ambient depth at or above
the agent's `max_depth` returns the depth-cap `Error` result, leaves the
ambient context and Todo cache untouched, performs no cache access, and
dispatches to no backend — the result is this same refusal for every
`engineRun`/`entryLoad`/`codeRun`/`httpOut` backend behaviour. -/
theorem subagentDepthCapRefuses (registry : SubAgentRegistry) (engineRun : EngineRun)
    (entryLoad : EntryLoad) (codeRun : CodeRun) (httpOut : HttpOutcome)
    (agentName task : String) (amb : Ambient) (cache : CacheState)
    (cfg : SubAgentConfig) (hn : agentName ≠ "") (ht : task ≠ "")
    (hreg : registry.get agentName = some cfg) (hd : cfg.maxDepth ≤ amb.agentDepth) :
    subagentExecute registry engineRun entryLoad codeRun httpOut agentName task amb cache =
      (.ok (ToolResult.fail (depthExceededMsg agentName cfg.maxDepth)), amb, cache, []) := by
  unfold subagentExecute
  rw [if_neg (by simp [hn, ht]), hreg]
  simp [hd]

/-- C4 witness: agent `researcher` with `max_depth = 2` invoked at ambient
depth 2 is refused with the depth message, for arbitrary concrete backend
behaviours. -/
theorem subagentDepthCapRefuses_witness :
    ("researcher" ≠ "" ∧ "t" ≠ "" ∧
      sampleAgentRegistry.get "researcher" = some sampleAgent ∧
      sampleAgent.maxDepth ≤ (⟨2, "s1"⟩ : Ambient).agentDepth) ∧
    subagentExecute sampleAgentRegistry sampleEngineRun .loaded sampleCodeRun (.ok "r")
        "researcher" "t" ⟨2, "s1"⟩ [] =
      (.ok (ToolResult.fail (depthExceededMsg "researcher" sampleAgent.maxDepth)), ⟨2, "s1"⟩, [], []) :=
  ⟨⟨by decide, by decide, by decide, by decide⟩,
    subagentDepthCapRefuses sampleAgentRegistry sampleEngineRun .loaded sampleCodeRun (.ok "r")
      "researcher" "t" ⟨2, "s1"⟩ [] sampleAgent
      (by decide) (by decide) (by decide) (by decide)⟩

/-- C5: on every exit path of `subagent_call` — success, backend error,
depth-cap refusal, parameter error, unknown agent, or a propagating
exception — the ambient `agent_depth` seen by the caller equals its value
before the call (both ambient variables are reset from their set tokens in
the `finally` blocks). -/
theorem subagentRestoresAmbientDepth (registry : SubAgentRegistry) (engineRun : EngineRun)
    (entryLoad : EntryLoad) (codeRun : CodeRun) (httpOut : HttpOutcome)
    (agentName task : String) (amb : Ambient) (cache : CacheState) :
    (subagentExecute registry engineRun entryLoad codeRun httpOut
        agentName task amb cache).2.1.agentDepth = amb.agentDepth := by
  unfold subagentExecute
  by_cases h0 : agentName = "" ∨ task = ""
  · simp [h0]
  · rw [if_neg h0]
    cases hreg : registry.get agentName with
    | none => simp
    | some cfg =>
      simp only []
      by_cases hd : cfg.maxDepth ≤ amb.agentDepth
      · simp [hd]
      · rw [if_neg hd]
        by_cases h1 : cfg.type = "local_l3"
        · rw [if_pos h1]
          unfold executeLocalL3
          cases hE : (engineRun ⟨amb.agentDepth + 1, ""⟩ cache).1 <;> simp [hE]
        · rw [if_neg h1]
          by_cases h2 : cfg.type = "local_code"
          · rw [if_pos h2]
            unfold executeLocalCode
            cases entryLoad with
            | parseError => simp
            | loadError e => simp
            | notSubclass => simp
            | loaded =>
              cases hC : (codeRun ⟨amb.agentDepth + 1, ""⟩ cache).1 <;> simp [hC]
          · rw [if_neg h2]
            by_cases h3 : cfg.type = "http"
            · rw [if_pos h3]
              unfold executeHttp
              cases httpOut <;> simp
            · simp [h3]

/-- Helper: with an empty ambient session id, the Todo store is a no-op. -/
theorem runTodoProgram_empty_sid (dump : List Todo → String)
    (parse : String → Option (List Todo)) (ops : List TodoOp) (c : CacheState) :
    runTodoProgram dump parse "" ops c = (c, []) := by
  induction ops generalizing c with
  | nil => rfl
  | cons op rest ih =>
    cases op with
    | write todos =>
      simp [runTodoProgram, todoStoreSet, ih]
    | read =>
      simp [runTodoProgram, todoStoreGet, ih]

/-- C6: `TodoStore.get`/`TodoStore.set` with the empty session id touch the
cache not at all, and a `local_l3` sub-agent run — whose subtree executes
every `todo_write`/`todo_read` under the ambient session id, set to `""` for
the subtree — leaves the Todo cache exactly as it was and performs no cache
access, for any Todo-operation program, parent session and prior cache. -/
theorem subagentTodoIsolation (dump : List Todo → String)
    (parse : String → Option (List Todo)) (todos : List Todo)
    (cfg : SubAgentConfig) (currentDepth : Nat) (ops : List TodoOp)
    (outcome : EngOutcome) (amb : Ambient) (cache : CacheState) :
    todoStoreGet parse "" cache = ([], []) ∧
    todoStoreSet dump "" todos cache = (cache, []) ∧
    (executeLocalL3 cfg currentDepth (engineRunWithTodos dump parse ops outcome)
        amb cache).2.2.1 = cache ∧
    (executeLocalL3 cfg currentDepth (engineRunWithTodos dump parse ops outcome)
        amb cache).2.2.2 = [] := by
  refine ⟨rfl, rfl, ?_, ?_⟩ <;>
  · unfold executeLocalL3 engineRunWithTodos
    rw [runTodoProgram_empty_sid]
    cases outcome <;> rfl

/-- Helper: mapping a first-component function over a zip with an
at-least-as-long right list is mapping over the left list. -/
theorem map_zip_fstFun {α β γ : Type} (g : α → γ) (l₁ : List α) (l₂ : List β)
    (h : l₁.length ≤ l₂.length) :
    (l₁.zip l₂).map (fun p => g p.1) = l₁.map g := by
  calc (l₁.zip l₂).map (fun p => g p.1)
      = ((l₁.zip l₂).map Prod.fst).map g := by rw [List.map_map]; rfl
    _ = l₁.map g := by rw [List.map_fst_zip l₁ l₂ h]

/-- C8: `Actor.act` executes every tool request of the `ThinkResult` and
merges results in the original request order: the observations (and the tool
messages after the assistant message) line up one-to-one with the requests;
a slot whose tool raised an ordinary exception carries the `Error`
ToolResult JSON at that position while every sibling keeps its own result;
a slot that returned carries its result string and duration; and a
cancellation propagates out of `act` instead of being merged. -/
theorem actorActMergesInRequestOrder (dumps : Args → String) (tr : ThinkResult)
    (calls : List ToolCallRequest) (results : List CallOutcome)
    (hc : tr.toolCalls = some calls) (hne : ¬calls.isEmpty = true)
    (hlen : results.length = calls.length) :
    (CallOutcome.cancelled ∈ results →
      actorAct dumps tr results = .error "CancelledError") ∧
    (CallOutcome.cancelled ∉ results →
      ∃ ar, actorAct dumps tr results = .ok ar ∧
        ar.observations.map (fun o => (o.toolName, o.toolCallId, o.arguments)) =
          calls.map (fun c => (c.name, c.id, c.arguments)) ∧
        ar.messages.map (fun m => m.toolCallId) =
          none :: calls.map (fun c => some c.id) ∧
        (∀ (i : Nat) (hir : i < results.length) (hio : i < ar.observations.length)
            (e : String), results.get ⟨i, hir⟩ = CallOutcome.exn e →
          (ar.observations.get ⟨i, hio⟩).result =
            (ToolResult.fail ("执行异常: " ++ e)).toJson) ∧
        (∀ (i : Nat) (hir : i < results.length) (hio : i < ar.observations.length)
            (s : String) (d : Nat), results.get ⟨i, hir⟩ = CallOutcome.ret s d →
          (ar.observations.get ⟨i, hio⟩).result = s ∧
            (ar.observations.get ⟨i, hio⟩).durationMs = d)) := by
  have hne' : calls.isEmpty = false := by simpa using hne
  constructor
  · intro hmem
    have hany : results.any CallOutcome.isCancelled = true :=
      List.any_eq_true.mpr ⟨.cancelled, hmem, rfl⟩
    simp [actorAct, hc, hne', hany]
  · intro hmem
    have hany : results.any CallOutcome.isCancelled = false := by
      cases h : results.any CallOutcome.isCancelled with
      | false => rfl
      | true =>
        exfalso
        obtain ⟨r, hr, hrc⟩ := List.any_eq_true.mp h
        cases r with
        | cancelled => exact hmem hr
        | ret s d => simp [CallOutcome.isCancelled] at hrc
        | exn e => simp [CallOutcome.isCancelled] at hrc
    refine ⟨⟨(calls.zip results).map mergeObservation,
        buildAssistantMessage dumps tr ::
          ((calls.zip results).map mergeObservation).map toolMessageOf⟩,
      ?_, ?_, ?_, ?_, ?_⟩
    · simp [actorAct, hc, hne', hany]
    · rw [List.map_map]
      have hcomp : ((fun o : Observation => (o.toolName, o.toolCallId, o.arguments)) ∘
          mergeObservation) =
          fun p : ToolCallRequest × CallOutcome => (p.1.name, p.1.id, p.1.arguments) := by
        funext p
        cases hp : p.2 <;> simp [mergeObservation, Function.comp, hp]
      rw [hcomp]
      exact map_zip_fstFun (fun c => (c.name, c.id, c.arguments)) calls results
        (le_of_eq hlen.symm)
    · simp only [List.map_cons, List.map_map]
      have hhd : (buildAssistantMessage dumps tr).toolCallId = none := rfl
      rw [hhd]
      congr 1
      have hcomp : ((fun m : ChatMsg => m.toolCallId) ∘ toolMessageOf ∘ mergeObservation) =
          fun p : ToolCallRequest × CallOutcome => some p.1.id := by
        funext p
        cases hp : p.2 <;> simp [mergeObservation, toolMessageOf, Function.comp, hp]
      rw [hcomp]
      exact map_zip_fstFun (fun c => some c.id) calls results (le_of_eq hlen.symm)
    · intro i hir hio e hres
      have hi : i < calls.length := hlen ▸ hir
      have hzi : i < (calls.zip results).length := by
        rw [List.length_zip]
        omega
      have h1 : (((calls.zip results).map mergeObservation).get ⟨i, hio⟩) =
          mergeObservation ((calls.zip results).get ⟨i, hzi⟩) := by
        simp [List.get_eq_getElem, List.getElem_map]
      have h2 : (calls.zip results).get ⟨i, hzi⟩ = (calls.get ⟨i, hi⟩, results.get ⟨i, hir⟩) := by
        simp [List.get_eq_getElem, List.getElem_zip]
      rw [h1, h2, hres]
      rfl
    · intro i hir hio s d hres
      have hi : i < calls.length := hlen ▸ hir
      have hzi : i < (calls.zip results).length := by
        rw [List.length_zip]
        omega
      have h1 : (((calls.zip results).map mergeObservation).get ⟨i, hio⟩) =
          mergeObservation ((calls.zip results).get ⟨i, hzi⟩) := by
        simp [List.get_eq_getElem, List.getElem_map]
      have h2 : (calls.zip results).get ⟨i, hzi⟩ = (calls.get ⟨i, hi⟩, results.get ⟨i, hir⟩) := by
        simp [List.get_eq_getElem, List.getElem_zip]
      rw [h1, h2, hres]
      exact ⟨rfl, rfl⟩

/-- C8 witness: two requests whose second gather slot was cancelled — the
step's cancellation propagates out of `act` at the concrete input. -/
theorem actorActMerges_witness :
    (sampleThink.toolCalls = some sampleCalls ∧ ¬sampleCalls.isEmpty = true ∧
      sampleResultsCancel.length = sampleCalls.length ∧
      CallOutcome.cancelled ∈ sampleResultsCancel) ∧
    actorAct sampleDumps sampleThink sampleResultsCancel = .error "CancelledError" :=
  ⟨⟨rfl, by decide, by decide, by decide⟩,
    (actorActMergesInRequestOrder sampleDumps sampleThink sampleCalls sampleResultsCancel
      rfl (by decide) (by decide)).1 (by decide)⟩

/-- Helper: a path produced by the allow-list lookup is enumerated by the
allow-list. -/
theorem getScriptPath_mem_allowedPaths (reg : SkillRegistry) (skillName scriptName p : String)
    (h : reg.getScriptPath skillName scriptName = some p) : p ∈ reg.allowedPaths := by
  unfold SkillRegistry.getScriptPath at h
  cases hf : reg.find skillName with
  | none => simp [hf] at h
  | some sk =>
    rw [hf] at h
    simp only [Option.map_eq_some'] at h
    obtain ⟨st, hst, hstp⟩ := h
    have hmem : st ∈ sk.scriptTools := List.mem_of_find?_eq_some hst
    have hskmem : sk ∈ reg.skills := List.mem_of_find?_eq_some hf
    unfold SkillRegistry.allowedPaths
    rw [List.mem_flatten]
    refine ⟨sk.scriptTools.map (fun s => s.scriptPath), List.mem_map_of_mem _ hskmem, ?_⟩
    rw [← hstp]
    exact List.mem_map_of_mem _ hmem

/-- C9: `skill_exec` returns an `Error` result and starts no subprocess for
every argument pair whose allow-list lookup fails (unknown skill, or script
not enumerated in that skill's `scripts/` allow-list — including blank
names), for every subprocess behaviour; and whenever a subprocess is
started, its script path is one enumerated by the registry's allow-list. -/
theorem skillExecAllowList (reg : SkillRegistry)
    (runner : String → Args → Nat → ToolResult)
    (skillName scriptName : String) (scriptArgs : Args) :
    (reg.getScriptPath (pyStrip skillName) (pyStrip scriptName) = none →
      (skillExecExecute reg runner skillName scriptName scriptArgs).1.status = "error" ∧
      (skillExecExecute reg runner skillName scriptName scriptArgs).2 = none) ∧
    (∀ path, (skillExecExecute reg runner skillName scriptName scriptArgs).2 = some path →
      path ∈ reg.allowedPaths) := by
  constructor
  · intro hnone
    unfold skillExecExecute
    by_cases h0 : pyStrip skillName = "" ∨ pyStrip scriptName = ""
    · rw [if_pos h0]
      exact ⟨rfl, rfl⟩
    · rw [if_neg h0, hnone]
      cases hn : reg.getScriptNames (pyStrip skillName) with
      | none => exact ⟨rfl, rfl⟩
      | some allowed => exact ⟨rfl, rfl⟩
  · intro path hpath
    unfold skillExecExecute at hpath
    by_cases h0 : pyStrip skillName = "" ∨ pyStrip scriptName = ""
    · rw [if_pos h0] at hpath
      cases hpath
    · rw [if_neg h0] at hpath
      cases hp : reg.getScriptPath (pyStrip skillName) (pyStrip scriptName) with
      | none =>
        rw [hp] at hpath
        cases hn : reg.getScriptNames (pyStrip skillName) <;> simp [hn] at hpath
      | some p =>
        rw [hp] at hpath
        have hpp : p = path := by
          simpa using hpath
        subst hpp
        exact getScriptPath_mem_allowedPaths reg (pyStrip skillName) (pyStrip scriptName) p hp

/-- C9 witness: against a registry holding skill `github` with script
allow-list `github_search_repos`, the pair `(github, get_secrets)` has no
allow-list entry and is refused with no subprocess; and the subprocess
started for the allow-listed `(github, search_repos)` runs the enumerated
path. -/
theorem skillExecAllowList_witness :
    (sampleSkillRegistry.getScriptPath (pyStrip "github") (pyStrip "get_secrets") = none ∧
      (skillExecExecute sampleSkillRegistry sampleRunner "github" "get_secrets" []).1.status =
        "error" ∧
      (skillExecExecute sampleSkillRegistry sampleRunner "github" "get_secrets" []).2 = none) ∧
    ((skillExecExecute sampleSkillRegistry sampleRunner "github" "search_repos" []).2 =
        some "/skills/github/scripts/search_repos.py" →
      "/skills/github/scripts/search_repos.py" ∈ sampleSkillRegistry.allowedPaths) :=
  ⟨⟨by decide,
    ((skillExecAllowList sampleSkillRegistry sampleRunner "github" "get_secrets" []).1
      (by decide)).1,
    ((skillExecAllowList sampleSkillRegistry sampleRunner "github" "get_secrets" []).1
      (by decide)).2⟩,
   (skillExecAllowList sampleSkillRegistry sampleRunner "github" "search_repos" []).2
     "/skills/github/scripts/search_repos.py"⟩

/-- C10: a raw LLM tool call whose `function.arguments` string fails JSON
decoding is neither raised on nor dropped: `think` yields a `ThinkResult`
with `is_done = false` whose requests include one carrying that call's id
and name with the empty arguments dict. -/
theorem thinkerKeepsBadJsonCall (jsonLoads : String → Option Args)
    (resp : LLMResponse) (schemas : List ToolSchema) (raws : List RawToolCall)
    (tc : RawToolCall) (hs : ¬schemas.isEmpty)
    (hraw : resp.toolCallsRaw = some raws) (hmem : tc ∈ raws)
    (hbad : jsonLoads tc.function.arguments = none) :
    (thinkerThink jsonLoads resp (some schemas)).isDone = false ∧
    ToolCallRequest.mk tc.id tc.function.name [] ∈
      ((thinkerThink jsonLoads resp (some schemas)).toolCalls.getD []) := by
  have hne : ¬raws.isEmpty := by
    cases raws with
    | nil => cases hmem
    | cons a l => simp
  have hmapne : ¬(raws.map (fun t =>
      ToolCallRequest.mk t.id t.function.name (safeJsonLoads jsonLoads t.function.arguments))).isEmpty := by
    cases raws with
    | nil => cases hmem
    | cons a l => simp
  have hparse : parseToolCalls jsonLoads (some raws) =
      some (raws.map (fun t =>
        ToolCallRequest.mk t.id t.function.name (safeJsonLoads jsonLoads t.function.arguments))) := by
    simp [parseToolCalls, hne, hmapne]
  have hkey : thinkerThink jsonLoads resp (some schemas) =
      ⟨resp.content.getD "",
        some (raws.map (fun t =>
          ToolCallRequest.mk t.id t.function.name (safeJsonLoads jsonLoads t.function.arguments))),
        resp.usage, false⟩ := by
    simp [thinkerThink, hs, hraw, hparse, hmapne]
  constructor
  · rw [hkey]
  · rw [hkey]
    simp only [Option.getD_some, List.mem_map]
    refine ⟨tc, hmem, ?_⟩
    simp [safeJsonLoads, hbad]

/-- C10 witness: a single raw call `web_search` with undecodable arguments is
kept with empty arguments and keeps the loop going. -/
theorem thinkerKeepsBadJsonCall_witness :
    (¬([⟨"web_search"⟩] : List ToolSchema).isEmpty ∧
      sampleResponse.toolCallsRaw = some [sampleRawCall] ∧
      sampleRawCall ∈ [sampleRawCall] ∧
      rejectAllJson sampleRawCall.function.arguments = none) ∧
    (thinkerThink rejectAllJson sampleResponse (some [⟨"web_search"⟩])).isDone = false ∧
    ToolCallRequest.mk sampleRawCall.id sampleRawCall.function.name [] ∈
      ((thinkerThink rejectAllJson sampleResponse (some [⟨"web_search"⟩])).toolCalls.getD []) :=
  ⟨⟨by decide, rfl, by decide, rfl⟩,
    thinkerKeepsBadJsonCall rejectAllJson sampleResponse [⟨"web_search"⟩] [sampleRawCall]
      sampleRawCall (by decide) rfl (by decide) rfl⟩

/-- Helper: a hit of `findSub` is an occurrence. -/
theorem findSub_some_isOccurrence (pat text : List Char) (i : Nat)
    (h : findSub pat text = some i) : pat <+: text.drop i := by
  induction text generalizing i with
  | nil =>
    unfold findSub at h
    by_cases hp : pat.isPrefixOf ([] : List Char) = true
    · rw [if_pos hp] at h
      injection h with h0
      subst h0
      simpa using List.isPrefixOf_iff_prefix.mp hp
    · rw [if_neg hp] at h
      cases h
  | cons c rest ih =>
    unfold findSub at h
    by_cases hp : pat.isPrefixOf (c :: rest) = true
    · rw [if_pos hp] at h
      injection h with h0
      subst h0
      simpa using List.isPrefixOf_iff_prefix.mp hp
    · rw [if_neg hp] at h
      cases hfr : findSub pat rest with
      | none => rw [hfr] at h; cases h
      | some i0 =>
        rw [hfr] at h
        injection h with h0
        subst h0
        simpa using ih i0 hfr

/-- Helper: a hit of `findSub` is the first occurrence. -/
theorem findSub_some_isFirst (pat text : List Char) (i : Nat)
    (h : findSub pat text = some i) : ∀ j, j < i → ¬ pat <+: text.drop j := by
  induction text generalizing i with
  | nil =>
    unfold findSub at h
    by_cases hp : pat.isPrefixOf ([] : List Char) = true
    · rw [if_pos hp] at h
      injection h with h0
      subst h0
      intro j hj
      omega
    · rw [if_neg hp] at h
      cases h
  | cons c rest ih =>
    unfold findSub at h
    by_cases hp : pat.isPrefixOf (c :: rest) = true
    · rw [if_pos hp] at h
      injection h with h0
      subst h0
      intro j hj
      omega
    · rw [if_neg hp] at h
      cases hfr : findSub pat rest with
      | none => rw [hfr] at h; cases h
      | some i0 =>
        rw [hfr] at h
        simp only [Option.map_some'] at h
        injection h with h0
        subst h0
        intro j hj
        cases j with
        | zero =>
          intro hpre
          exact hp (List.isPrefixOf_iff_prefix.mpr (by simpa using hpre))
        | succ j0 =>
          intro hpre
          exact ih i0 hfr j0 (by omega) (by simpa using hpre)

/-- Helper: a miss of `findSub` means no occurrence anywhere. -/
theorem findSub_none_noOccurrence (pat text : List Char)
    (h : findSub pat text = none) : ∀ j, ¬ pat <+: text.drop j := by
  induction text with
  | nil =>
    unfold findSub at h
    by_cases hp : pat.isPrefixOf ([] : List Char) = true
    · rw [if_pos hp] at h
      cases h
    · rw [if_neg hp] at h
      intro j hpre
      rw [List.drop_nil] at hpre
      exact hp (List.isPrefixOf_iff_prefix.mpr hpre)
  | cons c rest ih =>
    unfold findSub at h
    by_cases hp : pat.isPrefixOf (c :: rest) = true
    · rw [if_pos hp] at h
      cases h
    · rw [if_neg hp] at h
      have hfr : findSub pat rest = none := by
        cases hfr : findSub pat rest with
        | none => rfl
        | some i0 => rw [hfr] at h; cases h
      intro j
      cases j with
      | zero =>
        intro hpre
        exact hp (List.isPrefixOf_iff_prefix.mpr (by simpa using hpre))
      | succ j0 =>
        intro hpre
        exact ih hfr j0 (by simpa using hpre)

/-- Helper: appending a border-free pattern to a pattern-free prefix places
the first occurrence exactly at the junction. -/
theorem findSub_append_self (pat base rest : List Char) (hb : hasBorderB pat = false)
    (hnone : findSub pat base = none) :
    findSub pat (base ++ (pat ++ rest)) = some base.length := by
  induction base with
  | nil =>
    cases hpat : pat with
    | nil =>
      exfalso
      unfold findSub at hnone
      rw [hpat] at hnone
      simp [List.isPrefixOf] at hnone
    | cons c t =>
      subst hpat
      show findSub (c :: t) ((c :: t) ++ rest) = some 0
      rw [List.cons_append]
      unfold findSub
      have hpre : (c :: t).isPrefixOf (c :: (t ++ rest)) = true := by
        rw [← List.cons_append]
        exact List.isPrefixOf_iff_prefix.mpr (List.prefix_append _ _)
      rw [if_pos hpre]
  | cons c b ih =>
    have hd := hnone
    unfold findSub at hd
    by_cases hp : pat.isPrefixOf (c :: b) = true
    · rw [if_pos hp] at hd
      cases hd
    · rw [if_neg hp] at hd
      have hfb : findSub pat b = none := by
        cases hfb : findSub pat b with
        | none => rfl
        | some i0 => rw [hfb] at hd; cases hd
      rw [List.cons_append]
      unfold findSub
      have hnp : ¬ pat.isPrefixOf (c :: (b ++ (pat ++ rest))) = true := by
        intro hpre0
        have hpre' : pat <+: (c :: b) ++ (pat ++ rest) := by
          rw [List.cons_append]
          exact List.isPrefixOf_iff_prefix.mp hpre0
        have htake : pat = ((c :: b) ++ (pat ++ rest)).take pat.length :=
          List.prefix_iff_eq_take.mp hpre'
        rw [List.take_append_eq_append_take] at htake
        by_cases hL : pat.length ≤ (c :: b).length
        · have h0 : pat.length - (c :: b).length = 0 := by omega
          rw [h0, List.take_zero, List.append_nil] at htake
          have hpb : pat <+: (c :: b) := htake ▸ List.take_prefix _ _
          exact hp (List.isPrefixOf_iff_prefix.mpr hpb)
        · push_neg at hL
          have h1 : ((c :: b) : List Char).take pat.length = c :: b :=
            List.take_of_length_le (by omega)
          rw [h1] at htake
          have h2 : (pat ++ rest).take (pat.length - (c :: b).length) =
              pat.take (pat.length - (c :: b).length) := by
            rw [List.take_append_eq_append_take]
            have h3 : pat.length - (c :: b).length - pat.length = 0 := by omega
            rw [h3, List.take_zero, List.append_nil]
          rw [h2] at htake
          have hdrop : pat.drop ((c :: b) : List Char).length =
              pat.take (pat.length - (c :: b).length) := by
            conv_lhs => rw [htake]
            exact List.drop_left _ _
          have hborder : hasBorderB pat = true := by
            unfold hasBorderB
            rw [List.any_eq_true]
            refine ⟨((c :: b) : List Char).length, List.mem_range.mpr hL, ?_⟩
            rw [Bool.and_eq_true]
            exact ⟨decide_eq_true (by simp), beq_iff_eq.mpr hdrop⟩
          rw [hb] at hborder
          cases hborder
      rw [if_neg hnp, ih hfb]
      rfl

/-- Helper: the injection marker is nonempty. -/
theorem todoReminderMarker_ne_nil : todoReminderMarker ≠ [] := by decide

/-- Helper: the injection marker is border-free. -/
theorem todoReminderMarker_borderFree : hasBorderB todoReminderMarker = false := by decide

/-- Helper: a stripped prompt contains no marker occurrence. -/
theorem findSub_stripMarker_none (content : List Char) :
    findSub todoReminderMarker (stripMarker content) = none := by
  unfold stripMarker
  cases hf : findSub todoReminderMarker content with
  | none => exact hf
  | some i =>
    cases hf2 : findSub todoReminderMarker (content.take i) with
    | none => rfl
    | some j =>
      exfalso
      have hpre := findSub_some_isOccurrence _ _ _ hf2
      rw [List.drop_take] at hpre
      by_cases hj : j < i
      · have hocc : todoReminderMarker <+: content.drop j :=
          hpre.trans (List.take_prefix _ _)
        exact findSub_some_isFirst _ _ _ hf j hj hocc
      · have h0 : i - j = 0 := by omega
        rw [h0, List.take_zero] at hpre
        exact todoReminderMarker_ne_nil (List.prefix_nil.mp hpre)

/-- Helper: stripping a freshly injected block recovers the stripped base. -/
theorem stripMarker_append_block (base tail : List Char)
    (hnone : findSub todoReminderMarker base = none) :
    stripMarker (base ++ (todoReminderMarker ++ tail)) = base := by
  unfold stripMarker
  rw [findSub_append_self todoReminderMarker base tail todoReminderMarker_borderFree hnone]
  exact List.take_left base _

/-- Helper: a marker-free prompt strips to itself. -/
theorem stripMarker_of_findSub_none (l : List Char)
    (h : findSub todoReminderMarker l = none) : stripMarker l = l := by
  unfold stripMarker
  rw [h]

/-- Helper: stripping is itself idempotent. -/
theorem stripMarker_stripMarker (content : List Char) :
    stripMarker (stripMarker content) = stripMarker content :=
  stripMarker_of_findSub_none _ (findSub_stripMarker_none content)

/-- Helper: the injected block is the marker followed by the header, the
snapshot and the end marker. -/
theorem todoReminderBlock_eq (dump : List Todo → List Char) (todos : List Todo) :
    todoReminderBlock dump todos =
      todoReminderMarker ++
        ("\n当前 Todo 列表（自动同步，请检查进度并继续执行）：\n```json\n".toList ++
          (dump todos ++ "\n```\n<!-- todo-reminder-end -->".toList)) := by
  unfold todoReminderBlock
  simp [List.append_assoc]

/-- C7: Todo injection is idempotent for a fixed snapshot — applying
`_inject_todo_reminder` twice yields the same message list (and in
particular the same `messages[0].content`) as applying it once, because the
previously injected block, delimited by the border-free marker, is stripped
before a fresh block is appended; and no message is ever appended: the
rewritten list keeps the length of the input. -/
theorem todoInjectionIdempotent (sessionId : String) (todos : List Todo)
    (dump : List Todo → List Char) (messages : List SysMsg) :
    injectTodoReminder sessionId todos dump
        (injectTodoReminder sessionId todos dump messages) =
      injectTodoReminder sessionId todos dump messages ∧
    (injectTodoReminder sessionId todos dump messages).length = messages.length := by
  by_cases hsid : sessionId = ""
  · simp [injectTodoReminder, hsid]
  · cases messages with
    | nil => simp [injectTodoReminder, hsid]
    | cons m0 rest =>
      by_cases hrole : m0.role ≠ "system"
      · simp [injectTodoReminder, hsid, hrole]
      · push_neg at hrole
        by_cases hact : (todos.filter todoIsActive).isEmpty = true
        · by_cases heq : m0.content = stripMarker m0.content
          · have h1 : injectTodoReminder sessionId todos dump (m0 :: rest) = m0 :: rest := by
              simp only [injectTodoReminder, hsid, if_false, hrole, hact]
              rw [if_pos trivial, if_pos heq]
              simp
            refine ⟨?_, ?_⟩
            · rw [h1]
              exact h1
            · rw [h1]
          · have h1 : injectTodoReminder sessionId todos dump (m0 :: rest) =
                ⟨"system", stripMarker m0.content⟩ :: rest := by
              simp [injectTodoReminder, hsid, hrole, hact, heq]
            have h2 : injectTodoReminder sessionId todos dump
                (⟨"system", stripMarker m0.content⟩ :: rest) =
                ⟨"system", stripMarker m0.content⟩ :: rest := by
              simp [injectTodoReminder, hsid, hact, stripMarker_stripMarker]
            refine ⟨?_, ?_⟩
            · rw [h1]
              exact h2
            · rw [h1]
              rfl
        · have h1 : injectTodoReminder sessionId todos dump (m0 :: rest) =
              ⟨"system", stripMarker m0.content ++ todoReminderBlock dump todos⟩ :: rest := by
            simp [injectTodoReminder, hsid, hrole, hact]
          have hstripB : stripMarker (stripMarker m0.content ++ todoReminderBlock dump todos) =
              stripMarker m0.content := by
            rw [todoReminderBlock_eq]
            exact stripMarker_append_block _ _ (findSub_stripMarker_none m0.content)
          have h2 : injectTodoReminder sessionId todos dump
              (⟨"system", stripMarker m0.content ++ todoReminderBlock dump todos⟩ :: rest) =
              ⟨"system", stripMarker m0.content ++ todoReminderBlock dump todos⟩ :: rest := by
            simp [injectTodoReminder, hsid, hact, hstripB]
          refine ⟨?_, ?_⟩
          · rw [h1]
            exact h2
          · rw [h1]
            rfl

end SunnyAgent
